import Mathlib

/-!
Shallow embedding of `src/demo.cc` (procedural block-chain shape generation
and multi-viewport scene composition), together with theorems checking the
natural-language specification against it.

Floating-point values in the source take only values that are exactly
representable (small integers, halves, and the two `std::numeric_limits`
sentinels), so `float` is embedded as `ℚ`.  The graphics API, the mesh
wrapper and the GLM matrix library are external collaborators: matrix
calls are embedded as an opaque expression type recording exactly which
functions the source calls, with which arguments, in which order.
-/

/-- A 3-component vector, embedding `glm::vec3` (float components as `ℚ`). -/
structure Vec3 where
  x : ℚ
  y : ℚ
  z : ℚ
deriving DecidableEq, Repr

instance : Add Vec3 := ⟨fun a b => ⟨a.x + b.x, a.y + b.y, a.z + b.z⟩⟩
instance : Neg Vec3 := ⟨fun a => ⟨-a.x, -a.y, -a.z⟩⟩
instance : SMul ℚ Vec3 := ⟨fun q a => ⟨q * a.x, q * a.y, q * a.z⟩⟩


/-- Componentwise minimum, embedding `glm::min` on `vec3`. -/
def vmin (a b : Vec3) : Vec3 := ⟨min a.x b.x, min a.y b.y, min a.z b.z⟩

/-- Componentwise maximum, embedding `glm::max` on `vec3`. -/
def vmax (a b : Vec3) : Vec3 := ⟨max a.x b.x, max a.y b.y, max a.z b.z⟩

/-- A vertex as laid out in `initializeShape`: position plus texture coordinate. -/
structure Vertex where
  position : Vec3
  texCoord : ℚ × ℚ
deriving DecidableEq, Repr

/-- Axis-aligned bounding box, embedding `BoundingBox` from the source. -/
structure BoundingBox where
  min : Vec3
  max : Vec3
deriving DecidableEq, Repr

/-- Exact value of `std::numeric_limits<float>::max()`. -/
def floatMax : ℚ := 2 ^ 128 - 2 ^ 104

/-- Exact value of `std::numeric_limits<float>::min()`: the smallest POSITIVE
normalized float, not the most negative float. -/
def floatMinPos : ℚ := 1 / 2 ^ 126

/-- The direction vector of `initializeShape` line 56:
`glm::vec3(direction >> 2, (direction >> 1) & 1, direction & 1)`. -/
def dirVec (direction : ℕ) : Vec3 :=
  ⟨(direction >>> 2 : ℕ), ((direction >>> 1) &&& 1 : ℕ), (direction &&& 1 : ℕ)⟩

/-- One random-walk segment trace: the direction and side in force while the
segment's cubes were placed, and the cube centers placed. -/
structure SegTrace where
  direction : ℕ
  side : ℚ
  blocks : List Vec3
deriving DecidableEq, Repr

/-- Transient generation state of `initializeShape`: current center, one-hot
direction, side sign, position `k` in the random stream, and a flag recording
that the `assert(false)` default branch of the direction switch was never
reached (`ok = false` once it is). -/
structure WalkState where
  center : Vec3
  direction : ℕ
  side : ℚ
  k : ℕ
  ok : Bool
deriving DecidableEq, Repr

/-- Initial walk state of `initializeShape` lines 43-45: center at the origin,
`direction = 2`, `side = 1`. `k` is the number of draws already consumed from
the shared random stream (the source uses one `static` generator). -/
def initWalkState (k : ℕ) : WalkState := ⟨⟨0, 0, 0⟩, 2, 1, k, true⟩

/-- The inner placement loop of `initializeShape` lines 57-61: `n` iterations of
"append the current center, then advance the center by `d`"; returns the
appended centers and the final center. -/
def segLoop (d : Vec3) : ℕ → Vec3 → List Vec3 × Vec3
  | 0, c => ([], c)
  | n + 1, c =>
    let (bl, c') := segLoop d n (c + d)
    (c :: bl, c')

/-- The direction switch of `initializeShape` lines 62-76. `b` is the boolean
value of the `zero_or_one(generator)` draw. The default branch (`assert(false)`)
leaves the direction unchanged and reports `false` in the second component. -/
def nextDirection (b : Bool) (direction : ℕ) : ℕ × Bool :=
  match direction with
  | 1 => (if b then 2 else 4, true)
  | 2 => (if b then 1 else 4, true)
  | 4 => (if b then 1 else 2, true)
  | d => (d, false)

/-- One iteration of the outer segment loop of `initializeShape` lines 54-79:
place `len` cubes along `d = 2 * side * dirVec direction`, then redraw the
direction and (independently) possibly flip the side sign, consuming two draws
from the random stream `r`.  A negative `len` places no cubes, exactly like the
source's `for (int i = 0; i < length; ++i)`. -/
def segStep (r : ℕ → Bool) (s : WalkState) (len : ℤ) : SegTrace × WalkState :=
  let d := (2 * s.side) • dirVec s.direction
  let (bl, c') := segLoop d len.toNat s.center
  let (dir', ok') := nextDirection (r s.k) s.direction
  let side' := if r (s.k + 1) then -s.side else s.side
  (⟨s.direction, s.side, bl⟩, ⟨c', dir', side', s.k + 2, s.ok && ok'⟩)

/-- The whole segment loop of `initializeShape` lines 54-79, returning one
trace entry per segment and the final walk state. -/
def walkSegs (r : ℕ → Bool) : List ℤ → WalkState → List SegTrace × WalkState
  | [], s => ([], s)
  | len :: rest, s =>
    let (tr, s') := segStep r s len
    let (trs, s'') := walkSegs r rest s'
    (tr :: trs, s'')

/-- The `addFace` lambda of `initializeShape` lines 89-98: two triangles over
corners `p0 p1 p2 p3`, translated by `center`, with the fixed texture corners. -/
def addFace (center p0 p1 p2 p3 : Vec3) : List Vertex :=
  [⟨p0 + center, (0, 0)⟩, ⟨p1 + center, (0, 1)⟩, ⟨p2 + center, (1, 1)⟩,
   ⟨p2 + center, (1, 1)⟩, ⟨p3 + center, (1, 0)⟩, ⟨p0 + center, (0, 0)⟩]

/-- The six `addFace` calls of `initializeShape` lines 100-116 (top, bottom,
right, left, back, front), in source order. -/
def cubeVertices (center : Vec3) : List Vertex :=
  addFace center ⟨-1, 1, -1⟩ ⟨-1, 1, 1⟩ ⟨1, 1, 1⟩ ⟨1, 1, -1⟩ ++
  addFace center ⟨1, -1, -1⟩ ⟨1, -1, 1⟩ ⟨-1, -1, 1⟩ ⟨-1, -1, -1⟩ ++
  addFace center ⟨-1, -1, -1⟩ ⟨-1, -1, 1⟩ ⟨-1, 1, 1⟩ ⟨-1, 1, -1⟩ ++
  addFace center ⟨1, 1, -1⟩ ⟨1, 1, 1⟩ ⟨1, -1, 1⟩ ⟨1, -1, -1⟩ ++
  addFace center ⟨-1, -1, -1⟩ ⟨-1, 1, -1⟩ ⟨1, 1, -1⟩ ⟨1, -1, -1⟩ ++
  addFace center ⟨1, -1, 1⟩ ⟨1, 1, 1⟩ ⟨-1, 1, 1⟩ ⟨-1, -1, 1⟩

/-- The body of the bounding-box loop of `initializeShape` lines 130-135:
`bb.min = glm::min(bb.min, p); bb.max = glm::max(bb.max, p)`. -/
def bbFold (bb : BoundingBox) (v : Vertex) : BoundingBox :=
  ⟨vmin bb.min v.position, vmax bb.max v.position⟩

/-- The bounding-box loop of `initializeShape` lines 127-135: one pass over the
vertices, starting from the `(float max, float min)` sentinel box. -/
def computeBoundingBox (vs : List Vertex) : BoundingBox :=
  vs.foldl bbFold
    ⟨⟨floatMax, floatMax, floatMax⟩, ⟨floatMinPos, floatMinPos, floatMinPos⟩⟩

/-- A generated shape: the cube centers, the flat vertex buffer handed to the
mesh collaborator, and the bounding box (the `Shape` of the source; GPU upload
is external). -/
structure Shape where
  blocks : List Vec3
  vertices : List Vertex
  boundingBox : BoundingBox
deriving DecidableEq, Repr

/-- `initializeShape` lines 39-142: run the random walk over `segments` from
random-stream position `k`, expand every cube center into 36 vertices, compute
the bounding box.  Also returns the stream position after this call, since the
source's generator is `static` and persists across calls. -/
def initializeShape (r : ℕ → Bool) (k : ℕ) (segments : List ℤ) : Shape × ℕ :=
  let (trace, fin) := walkSegs r segments (initWalkState k)
  let blocks := trace.flatMap SegTrace.blocks
  let vertices := blocks.flatMap cubeVertices
  ({ blocks := blocks, vertices := vertices,
     boundingBox := computeBoundingBox vertices }, fin.k)

/-- Diagnostic messages `initializeProgram` prints to stderr on failure. -/
inductive LogEvent where
  | vertexShaderFailed
  | fragmentShaderFailed
  | linkFailed
deriving DecidableEq, Repr

/-- `initializeProgram` (demo.cc lines 15-37), with the external shader
collaborator abstracted by the boolean results of its three calls
(`addShader(GL_VERTEX_SHADER, ..)`, `addShader(GL_FRAGMENT_SHADER, ..)`,
`link()`).  Returns the function's boolean result and the diagnostics logged.
Note the source's link branch (lines 31-34) logs the failure but has no
`return false`, so the function still returns `true`. -/
def initializeProgram (vertexOk fragmentOk linkOk : Bool) : Bool × List LogEvent :=
  if !vertexOk then (false, [LogEvent.vertexShaderFailed])
  else if !fragmentOk then (false, [LogEvent.fragmentShaderFailed])
  else if !linkOk then (true, [LogEvent.linkFailed])
  else (true, [])

/-- Scene state of the `Demo` class: surface dimensions, shape collection and
elapsed time (`m_canvasWidth`, `m_canvasHeight`, `m_shapes`, `m_curTime`). -/
structure Demo where
  canvasWidth : ℕ
  canvasHeight : ℕ
  shapes : List Shape
  curTime : ℚ
deriving DecidableEq, Repr

/-- Modelled from the spec: the `Demo` constructor in demo.cc lines 145-149 sets
only the canvas dimensions; the in-class initializers of `m_shapes` (empty) and
`m_curTime` live in `demo.h`, which is not part of the given sources.  The spec
states the shape collection is filled only at initialization and the elapsed
time is "initialized to 0". -/
def mkDemo (w h : ℕ) : Demo := ⟨w, h, [], 0⟩

/-- Symbolic matrix expressions: the GLM matrix library is an external
collaborator, so each call the source makes is recorded as an opaque
constructor applied to the arguments the source passes.
`perspective` takes the field of view in degrees (the source passes
`glm::radians(fovyDeg)`); `rotate` records the axis argument BEFORE the
source's `glm::normalize` is applied to it; `translate` and `rotate` are
applied to the identity matrix as in the source. -/
inductive MatExpr where
  | perspective (fovyDeg aspect zNear zFar : ℚ)
  | lookAt (eye center up : Vec3)
  | translate (v : Vec3)
  | rotate (angle : ℚ) (axisArg : Vec3)
  | mul (a b : MatExpr)
deriving DecidableEq, Repr

/-- One per-shape iteration of the render loop (demo.cc lines 175-198): the
viewport rectangle passed to `glViewport`, the three matrices, the combined
`mvp` uniform, and the vertex count handed to `mesh->render(GL_TRIANGLES)`. -/
structure DrawCommand where
  viewportX : ℕ
  viewportY : ℕ
  viewportW : ℕ
  viewportH : ℕ
  projection : MatExpr
  view : MatExpr
  model : MatExpr
  mvp : MatExpr
  vertexCount : ℕ
deriving DecidableEq, Repr

/-- The viewport layout and draw list of one frame. -/
structure RenderLayout where
  rowCount : ℕ
  viewportWidth : ℕ
  viewportHeight : ℕ
  draws : List DrawCommand
deriving DecidableEq, Repr

/-- Result of one `Demo::render` call.  `cleared` records the unconditional
`glClear` of color and depth buffers (line 162); `layout` is `none` when the
viewport-height computation divides by zero (`rowCount = 0`, undefined
behaviour in the source) and otherwise holds the draw commands issued. -/
structure RenderResult where
  cleared : Bool
  layout : Option RenderLayout
deriving DecidableEq, Repr

/-- The body of the per-shape render loop of `Demo::render` (demo.cc lines
175-198), for the shape at index `p.1`: the `glViewport` rectangle of lines
179-181 and the matrices of lines 183-194, with the combined `mvp` uniform of
line 194 and the vertex count drawn by `mesh->render(GL_TRIANGLES)`. -/
def drawFor (d : Demo) (viewportWidth viewportHeight : ℕ) (p : ℕ × Shape) :
    DrawCommand :=
  let i := p.1
  let shape := p.2
  let projection := MatExpr.perspective 45
    ((viewportWidth : ℚ) / (viewportHeight : ℚ)) (1 / 10) 100
  let view := MatExpr.lookAt ⟨0, 0, -18⟩ ⟨0, 0, 0⟩ ⟨0, 1, 0⟩
  let center := (1 / 2 : ℚ) • (shape.boundingBox.min + shape.boundingBox.max)
  let t := MatExpr.translate (-center)
  let angle := -(3 / 2 : ℚ) * d.curTime
  let rot := MatExpr.rotate angle ⟨1, 1, 1⟩
  let model := MatExpr.mul rot t
  { viewportX := (i % 3) * viewportWidth
    viewportY := (i / 3) * viewportHeight
    viewportW := viewportWidth
    viewportH := viewportHeight
    projection := projection
    view := view
    model := model
    mvp := MatExpr.mul (MatExpr.mul projection view) model
    vertexCount := shape.vertices.length }

/-- `Demo::render` (demo.cc lines 159-199).  Clears the buffers, then computes
`viewportWidth = m_canvasWidth / 3` and
`viewportHeight = m_canvasHeight / ((shapes.size() + 3 - 1) / 3)`; the latter
is an integer division whose divisor is 0 exactly when the shape collection is
empty, which the model reports as `layout = none`.  Otherwise it emits one
draw command per shape with the viewport and matrices of lines 179-197. -/
def Demo.render (d : Demo) : RenderResult :=
  let rowCount := (d.shapes.length + 3 - 1) / 3
  if rowCount = 0 then
    { cleared := true, layout := none }
  else
    let viewportWidth := d.canvasWidth / 3
    let viewportHeight := d.canvasHeight / rowCount
    { cleared := true,
      layout := some { rowCount := rowCount, viewportWidth := viewportWidth,
                       viewportHeight := viewportHeight,
                       draws := d.shapes.enum.map
                         (drawFor d viewportWidth viewportHeight) } }

/-- `Demo::renderAndStep` (demo.cc lines 153-157): render with the current
elapsed time, then `m_curTime += dt`. -/
def Demo.renderAndStep (d : Demo) (dt : ℚ) : RenderResult × Demo :=
  (d.render, { d with curTime := d.curTime + dt })

/-- `Demo::initialize` (demo.cc lines 201-212), with the shader collaborator
abstracted as in `initializeProgram` and the shared `static` random stream
starting at position 0: on program-setup failure return `false` with the demo
unchanged, otherwise push six shapes generated from segments `[3, 3, 2, 3]`
(the stream position advancing across the six calls) and return `true`. -/
def Demo.initializeScene (vertexOk fragmentOk linkOk : Bool) (r : ℕ → Bool)
    (d : Demo) : Bool × Demo :=
  if !(initializeProgram vertexOk fragmentOk linkOk).1 then (false, d)
  else
    let segments : List ℤ := [3, 3, 2, 3]
    let step := fun (acc : List Shape × ℕ) (_ : ℕ) =>
      let (sh, k') := initializeShape r acc.2 segments
      (acc.1 ++ [sh], k')
    let (newShapes, _) := (List.range 6).foldl step ([], 0)
    (true, { d with shapes := d.shapes ++ newShapes })

/-- The walk-state invariant: the direction is one of the three one-hot
patterns and the side sign is `±1`. -/
def WalkInv (s : WalkState) : Prop :=
  (s.direction = 1 ∨ s.direction = 2 ∨ s.direction = 4) ∧ (s.side = 1 ∨ s.side = -1)

/-- A point all of whose coordinates are even integers. -/
def EvenPt (p : Vec3) : Prop :=
  ∃ a b c : ℤ, p.x = 2 * a ∧ p.y = 2 * b ∧ p.z = 2 * c

/-- A demo state with six placeholder shapes, used to evaluate the viewport
layout on a concrete six-shape scene. -/
def demoSix : Demo :=
  ⟨600, 400, List.replicate 6 ⟨[], [], ⟨⟨0, 0, 0⟩, ⟨0, 0, 0⟩⟩⟩, 0⟩

/-- A demo state with one placeholder shape, used to evaluate the per-shape
transform derivation on a concrete scene. -/
def demoOne : Demo :=
  ⟨300, 200, [⟨[], [], ⟨⟨-1, -1, -1⟩, ⟨3, 1, 1⟩⟩⟩], 7⟩

@[simp] theorem Vec3.add_def (a b : Vec3) :
    a + b = ⟨a.x + b.x, a.y + b.y, a.z + b.z⟩ := rfl

@[simp] theorem Vec3.smul_def (q : ℚ) (a : Vec3) :
    q • a = ⟨q * a.x, q * a.y, q * a.z⟩ := rfl

theorem segLoop_succ (d : Vec3) (n : ℕ) (c : Vec3) :
    segLoop d (n + 1) c = (c :: (segLoop d n (c + d)).1, (segLoop d n (c + d)).2) :=
  rfl

theorem segLoop_length (d : Vec3) (n : ℕ) : ∀ c, ((segLoop d n c).1).length = n := by
  induction n with
  | zero => intro c; rfl
  | succ n ih => intro c; simp [segLoop_succ, ih]

theorem segLoop_head (d : Vec3) (n : ℕ) (c : Vec3) :
    ((segLoop d (n + 1) c).1).head? = some c := by
  simp [segLoop_succ]

theorem segLoop_chain (d : Vec3) (n : ℕ) :
    ∀ c, List.Chain' (fun p q => q = p + d) (segLoop d n c).1 := by
  induction n with
  | zero => intro c; simp [segLoop]
  | succ n ih =>
    intro c
    rw [segLoop_succ]
    cases n with
    | zero => simp [segLoop]
    | succ m =>
      refine List.chain'_cons'.2 ⟨?_, ih (c + d)⟩
      intro b hb
      rw [segLoop_head] at hb
      simp only [Option.mem_def, Option.some.injEq] at hb
      exact hb.symm

theorem segLoop_get (d : Vec3) (n : ℕ) :
    ∀ c j, j < n → ((segLoop d n c).1).get? j = some ⟨c.x + j * d.x, c.y + j * d.y, c.z + j * d.z⟩ := by
  induction n with
  | zero => intro c j hj; omega
  | succ n ih =>
    intro c j hj
    rw [segLoop_succ]
    cases j with
    | zero =>
      simp only [List.get?_cons_zero, Option.some.injEq]
      show c = _
      cases c
      simp
    | succ j =>
      simp only [List.get?_cons_succ]
      rw [ih (c + d) j (by omega)]
      simp only [Vec3.add_def, Option.some.injEq, Vec3.mk.injEq]
      push_cast
      refine ⟨by ring, by ring, by ring⟩

theorem walkSegs_cons (r : ℕ → Bool) (len : ℤ) (rest : List ℤ) (s : WalkState) :
    walkSegs r (len :: rest) s =
      ((segStep r s len).1 :: (walkSegs r rest (segStep r s len).2).1,
       (walkSegs r rest (segStep r s len).2).2) :=
  rfl

theorem segStep_fst (r : ℕ → Bool) (s : WalkState) (len : ℤ) :
    (segStep r s len).1 =
      ⟨s.direction, s.side,
       (segLoop ((2 * s.side) • dirVec s.direction) len.toNat s.center).1⟩ :=
  rfl

theorem segStep_snd (r : ℕ → Bool) (s : WalkState) (len : ℤ) :
    (segStep r s len).2 =
      ⟨(segLoop ((2 * s.side) • dirVec s.direction) len.toNat s.center).2,
       (nextDirection (r s.k) s.direction).1,
       if r (s.k + 1) then -s.side else s.side,
       s.k + 2,
       s.ok && (nextDirection (r s.k) s.direction).2⟩ :=
  rfl

theorem nextDirection_ne (b : Bool) (d : ℕ) (hd : d = 1 ∨ d = 2 ∨ d = 4) :
    (nextDirection b d).1 ≠ d := by
  rcases hd with h | h | h <;> subst h <;> cases b <;> simp [nextDirection]

theorem nextDirection_mem (b : Bool) (d : ℕ) (hd : d = 1 ∨ d = 2 ∨ d = 4) :
    (nextDirection b d).1 = 1 ∨ (nextDirection b d).1 = 2 ∨ (nextDirection b d).1 = 4 := by
  rcases hd with h | h | h <;> subst h <;> cases b <;> simp [nextDirection]

theorem nextDirection_ok (b : Bool) (d : ℕ) (hd : d = 1 ∨ d = 2 ∨ d = 4) :
    (nextDirection b d).2 = true := by
  rcases hd with h | h | h <;> subst h <;> cases b <;> simp [nextDirection]

theorem segStep_inv (r : ℕ → Bool) (s : WalkState) (len : ℤ) (h : WalkInv s) :
    WalkInv (segStep r s len).2 := by
  obtain ⟨hd, hs⟩ := h
  rw [segStep_snd]
  refine ⟨nextDirection_mem _ _ hd, ?_⟩
  rcases hs with h | h <;> rw [h] <;> cases hr : r (s.k + 1) <;> simp

theorem segStep_ok (r : ℕ → Bool) (s : WalkState) (len : ℤ) (h : WalkInv s) :
    (segStep r s len).2.ok = s.ok := by
  rw [segStep_snd]
  simp [nextDirection_ok _ _ h.1]

theorem walkSegs_dirs_head (r : ℕ → Bool) (len : ℤ) (rest : List ℤ) (s : WalkState) :
    ((walkSegs r (len :: rest) s).1.map SegTrace.direction).head? = some s.direction := by
  rw [walkSegs_cons]
  simp [segStep_fst]

theorem walkSegs_inv (r : ℕ → Bool) (l : List ℤ) :
    ∀ s : WalkState, WalkInv s →
      WalkInv (walkSegs r l s).2 ∧
      (walkSegs r l s).2.ok = s.ok ∧
      (∀ t ∈ (walkSegs r l s).1,
        (t.direction = 1 ∨ t.direction = 2 ∨ t.direction = 4) ∧
        (t.side = 1 ∨ t.side = -1)) ∧
      List.Chain' (fun a b => a ≠ b) ((walkSegs r l s).1.map SegTrace.direction) := by
  induction l with
  | nil => intro s hs; exact ⟨hs, rfl, by simp [walkSegs], by simp [walkSegs]⟩
  | cons len rest ih =>
    intro s hs
    have hstep := segStep_inv r s len hs
    obtain ⟨hinv, hok, hall, hchain⟩ := ih (segStep r s len).2 hstep
    rw [walkSegs_cons]
    refine ⟨hinv, ?_, ?_, ?_⟩
    · rw [hok, segStep_ok r s len hs]
    · intro t ht
      rcases List.mem_cons.1 ht with h | h
      · subst h; rw [segStep_fst]; exact ⟨hs.1, hs.2⟩
      · exact hall t h
    · simp only [List.map_cons]
      refine List.chain'_cons'.2 ⟨?_, hchain⟩
      intro b hb
      rw [segStep_fst]
      show s.direction ≠ b
      cases rest with
      | nil => simp [walkSegs] at hb
      | cons len' rest' =>
        rw [walkSegs_dirs_head] at hb
        simp only [Option.mem_def, Option.some.injEq] at hb
        subst hb
        rw [segStep_snd]
        exact fun h => nextDirection_ne (r s.k) s.direction hs.1 h.symm

theorem EvenPt.add {p q : Vec3} (hp : EvenPt p) (hq : EvenPt q) : EvenPt (p + q) := by
  obtain ⟨a, b, c, ha, hb, hc⟩ := hp
  obtain ⟨a', b', c', ha', hb', hc'⟩ := hq
  refine ⟨a + a', b + b', c + c', ?_, ?_, ?_⟩ <;>
    simp [Vec3.add_def, ha, hb, hc, ha', hb', hc'] <;> ring

theorem stepVec_even (side : ℚ) (dir : ℕ)
    (hd : dir = 1 ∨ dir = 2 ∨ dir = 4) (hs : side = 1 ∨ side = -1) :
    EvenPt ((2 * side) • dirVec dir) := by
  rcases hd with h | h | h <;> subst h <;> rcases hs with h | h <;> subst h
  · exact ⟨0, 0, 1, by norm_num [dirVec] <;> decide⟩
  · exact ⟨0, 0, -1, by norm_num [dirVec] <;> decide⟩
  · exact ⟨0, 1, 0, by norm_num [dirVec] <;> decide⟩
  · exact ⟨0, -1, 0, by norm_num [dirVec] <;> decide⟩
  · exact ⟨1, 0, 0, by norm_num [dirVec] <;> decide⟩
  · exact ⟨-1, 0, 0, by norm_num [dirVec] <;> decide⟩

theorem segLoop_even (d : Vec3) (hd : EvenPt d) (n : ℕ) :
    ∀ c, EvenPt c →
      (∀ p ∈ (segLoop d n c).1, EvenPt p) ∧ EvenPt (segLoop d n c).2 := by
  induction n with
  | zero => intro c hc; exact ⟨by simp [segLoop], hc⟩
  | succ n ih =>
    intro c hc
    obtain ⟨hall, hfin⟩ := ih (c + d) (hc.add hd)
    rw [segLoop_succ]
    refine ⟨?_, hfin⟩
    intro p hp
    rcases List.mem_cons.1 hp with h | h
    · subst h; exact hc
    · exact hall p h

theorem walkSegs_even (r : ℕ → Bool) (l : List ℤ) :
    ∀ s : WalkState, WalkInv s → EvenPt s.center →
      (∀ t ∈ (walkSegs r l s).1, ∀ p ∈ t.blocks, EvenPt p) ∧
      EvenPt (walkSegs r l s).2.center := by
  induction l with
  | nil => intro s _ hc; exact ⟨by simp [walkSegs], hc⟩
  | cons len rest ih =>
    intro s hs hc
    have hd : EvenPt ((2 * s.side) • dirVec s.direction) :=
      stepVec_even s.side s.direction hs.1 hs.2
    obtain ⟨hseg, hcen⟩ :=
      segLoop_even _ hd len.toNat s.center hc
    have hc' : EvenPt (segStep r s len).2.center := by rw [segStep_snd]; exact hcen
    obtain ⟨hall, hfin⟩ := ih (segStep r s len).2 (segStep_inv r s len hs) hc'
    rw [walkSegs_cons]
    refine ⟨?_, hfin⟩
    intro t ht
    rcases List.mem_cons.1 ht with h | h
    · subst h
      intro p hp
      rw [segStep_fst] at hp
      exact hseg p hp
    · exact hall t h

theorem walkSegs_blocks_length (r : ℕ → Bool) (l : List ℤ) :
    ∀ s : WalkState,
      ((walkSegs r l s).1.flatMap SegTrace.blocks).length = (l.map Int.toNat).sum := by
  induction l with
  | nil => intro s; simp [walkSegs]
  | cons len rest ih =>
    intro s
    rw [walkSegs_cons]
    simp only [List.flatMap_cons, List.length_append, List.map_cons, List.sum_cons]
    rw [ih, segStep_fst]
    simp [segLoop_length]

theorem walkSegs_blocks_head (r : ℕ → Bool) (l : List ℤ) :
    ∀ s : WalkState,
      (walkSegs r l s).1.flatMap SegTrace.blocks = [] ∨
      ((walkSegs r l s).1.flatMap SegTrace.blocks).head? = some s.center := by
  induction l with
  | nil => intro s; left; simp [walkSegs]
  | cons len rest ih =>
    intro s
    rw [walkSegs_cons]
    simp only [List.flatMap_cons]
    rcases hn : len.toNat with _ | n
    · have hbl : (segStep r s len).1.blocks = [] := by
        rw [segStep_fst]; simp [hn, segLoop]
      have hcen : (segStep r s len).2.center = s.center := by
        rw [segStep_snd]; simp [hn, segLoop]
      rw [hbl, hcen.symm]
      simpa using ih (segStep r s len).2
    · right
      have hbl : (segStep r s len).1.blocks =
          s.center :: (segLoop ((2 * s.side) • dirVec s.direction) n
            (s.center + (2 * s.side) • dirVec s.direction)).1 := by
        rw [segStep_fst]; simp [hn, segLoop_succ]
      rw [hbl]
      simp

theorem mem_blocks_of_mem_trace (trs : List SegTrace) (t : SegTrace) (p : Vec3)
    (ht : t ∈ trs) (hp : p ∈ t.blocks) : p ∈ trs.flatMap SegTrace.blocks :=
  List.mem_flatMap.2 ⟨t, ht, hp⟩

theorem cubeVertices_length (c : Vec3) : (cubeVertices c).length = 36 := rfl

theorem flatMap_cubeVertices_length (bl : List Vec3) :
    (bl.flatMap cubeVertices).length = 36 * bl.length := by
  induction bl with
  | nil => simp
  | cons c bl ih =>
    simp only [List.flatMap_cons, List.length_append, ih, cubeVertices_length,
      List.length_cons]
    ring

theorem lowCorner_mem_cubeVertices (c : Vec3) :
    (⟨⟨-1, -1, -1⟩ + c, (0, 0)⟩ : Vertex) ∈ cubeVertices c := by
  simp [cubeVertices, addFace]

theorem highCorner_mem_cubeVertices (c : Vec3) :
    (⟨⟨1, 1, 1⟩ + c, (1, 1)⟩ : Vertex) ∈ cubeVertices c := by
  simp [cubeVertices, addFace]

theorem foldl_bbFold_min_le_init (g : Vec3 → ℚ)
    (hg : ∀ a b : Vec3, g (vmin a b) = min (g a) (g b)) (vs : List Vertex) :
    ∀ bb : BoundingBox, g (vs.foldl bbFold bb).min ≤ g bb.min := by
  induction vs with
  | nil => intro bb; exact le_refl _
  | cons v vs ih =>
    intro bb
    calc g ((vs.foldl bbFold (bbFold bb v)).min) ≤ g (bbFold bb v).min := ih _
      _ ≤ g bb.min := by rw [bbFold, hg]; exact min_le_left _ _

theorem foldl_bbFold_min_le_mem (g : Vec3 → ℚ)
    (hg : ∀ a b : Vec3, g (vmin a b) = min (g a) (g b)) (vs : List Vertex)
    (v : Vertex) (hv : v ∈ vs) :
    ∀ bb : BoundingBox, g (vs.foldl bbFold bb).min ≤ g v.position := by
  induction vs with
  | nil => cases hv
  | cons u vs ih =>
    intro bb
    rcases List.mem_cons.1 hv with h | h
    · subst h
      calc g ((vs.foldl bbFold (bbFold bb v)).min) ≤ g (bbFold bb v).min :=
            foldl_bbFold_min_le_init g hg vs _
        _ ≤ g v.position := by rw [bbFold, hg]; exact min_le_right _ _
    · exact ih h _

theorem foldl_bbFold_max_ge_init (g : Vec3 → ℚ)
    (hg : ∀ a b : Vec3, g (vmax a b) = max (g a) (g b)) (vs : List Vertex) :
    ∀ bb : BoundingBox, g bb.max ≤ g (vs.foldl bbFold bb).max := by
  induction vs with
  | nil => intro bb; exact le_refl _
  | cons v vs ih =>
    intro bb
    calc g bb.max ≤ g (bbFold bb v).max := by rw [bbFold, hg]; exact le_max_left _ _
      _ ≤ g ((vs.foldl bbFold (bbFold bb v)).max) := ih _

theorem foldl_bbFold_max_ge_mem (g : Vec3 → ℚ)
    (hg : ∀ a b : Vec3, g (vmax a b) = max (g a) (g b)) (vs : List Vertex)
    (v : Vertex) (hv : v ∈ vs) :
    ∀ bb : BoundingBox, g v.position ≤ g (vs.foldl bbFold bb).max := by
  induction vs with
  | nil => cases hv
  | cons u vs ih =>
    intro bb
    rcases List.mem_cons.1 hv with h | h
    · subst h
      calc g v.position ≤ g (bbFold bb v).max := by
            rw [bbFold, hg]; exact le_max_right _ _
        _ ≤ g ((vs.foldl bbFold (bbFold bb v)).max) :=
            foldl_bbFold_max_ge_init g hg vs _
    · exact ih h _

theorem computeBoundingBox_min_le (g : Vec3 → ℚ)
    (hg : ∀ a b : Vec3, g (vmin a b) = min (g a) (g b)) (vs : List Vertex)
    (v : Vertex) (hv : v ∈ vs) :
    g (computeBoundingBox vs).min ≤ g v.position :=
  foldl_bbFold_min_le_mem g hg vs v hv _

theorem computeBoundingBox_max_ge (g : Vec3 → ℚ)
    (hg : ∀ a b : Vec3, g (vmax a b) = max (g a) (g b)) (vs : List Vertex)
    (v : Vertex) (hv : v ∈ vs) :
    g v.position ≤ g (computeBoundingBox vs).max :=
  foldl_bbFold_max_ge_mem g hg vs v hv _

theorem vmin_x (a b : Vec3) : (vmin a b).x = min a.x b.x := rfl

theorem vmin_y (a b : Vec3) : (vmin a b).y = min a.y b.y := rfl

theorem vmin_z (a b : Vec3) : (vmin a b).z = min a.z b.z := rfl

theorem vmax_x (a b : Vec3) : (vmax a b).x = max a.x b.x := rfl

theorem vmax_y (a b : Vec3) : (vmax a b).y = max a.y b.y := rfl

theorem vmax_z (a b : Vec3) : (vmax a b).z = max a.z b.z := rfl

theorem initializeShape_blocks (r : ℕ → Bool) (k : ℕ) (segs : List ℤ) :
    ((initializeShape r k segs).1).blocks =
      (walkSegs r segs (initWalkState k)).1.flatMap SegTrace.blocks :=
  rfl

theorem initializeShape_vertices (r : ℕ → Bool) (k : ℕ) (segs : List ℤ) :
    ((initializeShape r k segs).1).vertices =
      ((initializeShape r k segs).1).blocks.flatMap cubeVertices :=
  rfl

theorem initializeShape_bb (r : ℕ → Bool) (k : ℕ) (segs : List ℤ) :
    ((initializeShape r k segs).1).boundingBox =
      computeBoundingBox ((initializeShape r k segs).1).vertices :=
  rfl

theorem dirVec_one : dirVec 1 = ⟨0, 0, 1⟩ := by
  have h1 : (1 >>> 2 : ℕ) = 0 := by decide
  have h2 : ((1 >>> 1) &&& 1 : ℕ) = 0 := by decide
  have h3 : (1 &&& 1 : ℕ) = 1 := by decide
  simp [dirVec, h1, h2, h3]

theorem dirVec_two : dirVec 2 = ⟨0, 1, 0⟩ := by
  have h1 : (2 >>> 2 : ℕ) = 0 := by decide
  have h2 : ((2 >>> 1) &&& 1 : ℕ) = 1 := by decide
  have h3 : (2 &&& 1 : ℕ) = 0 := by decide
  simp [dirVec, h1, h2, h3]

theorem dirVec_four : dirVec 4 = ⟨1, 0, 0⟩ := by
  have h1 : (4 >>> 2 : ℕ) = 1 := by decide
  have h2 : ((4 >>> 1) &&& 1 : ℕ) = 0 := by decide
  have h3 : (4 &&& 1 : ℕ) = 0 := by decide
  simp [dirVec, h1, h2, h3]

theorem walkSegs_blocks_chain (r : ℕ → Bool) (l : List ℤ) :
    ∀ s : WalkState, ∀ t ∈ (walkSegs r l s).1,
      List.Chain' (fun p q => q = p + (2 * t.side) • dirVec t.direction) t.blocks := by
  induction l with
  | nil => intro s t ht; simp [walkSegs] at ht
  | cons len rest ih =>
    intro s t ht
    rw [walkSegs_cons] at ht
    rcases List.mem_cons.1 ht with h | h
    · subst h
      rw [segStep_fst]
      exact segLoop_chain _ _ _
    · exact ih _ t h

theorem sum_toNat_of_nonneg (l : List ℤ) (h : ∀ x ∈ l, 0 ≤ x) :
    ((l.map Int.toNat).sum : ℤ) = l.sum := by
  induction l with
  | nil => simp
  | cons a l ih =>
    simp only [List.map_cons, List.sum_cons, Nat.cast_add]
    rw [Int.toNat_of_nonneg (h a (List.mem_cons_self a l)),
      ih fun x hx => h x (List.mem_cons_of_mem a hx)]

/-- C6: throughout generation the direction is always one of the one-hot
patterns 1, 2, 4 (for every segment and for the final state), the
`assert(false)` default branch of the direction switch is never reached
(`ok` stays `true`), and the directions of consecutive segments are never
equal: the walk always turns at a segment boundary. -/
theorem c6_axis_one_hot_and_turning (r : ℕ → Bool) (k : ℕ) (segs : List ℤ) :
    (walkSegs r segs (initWalkState k)).2.ok = true ∧
    ((walkSegs r segs (initWalkState k)).2.direction = 1 ∨
     (walkSegs r segs (initWalkState k)).2.direction = 2 ∨
     (walkSegs r segs (initWalkState k)).2.direction = 4) ∧
    (∀ t ∈ (walkSegs r segs (initWalkState k)).1,
      t.direction = 1 ∨ t.direction = 2 ∨ t.direction = 4) ∧
    List.Chain' (fun a b => a ≠ b)
      ((walkSegs r segs (initWalkState k)).1.map SegTrace.direction) := by
  have h := walkSegs_inv r segs (initWalkState k)
    ⟨Or.inr (Or.inl rfl), Or.inl rfl⟩
  exact ⟨h.2.1, h.1.1, fun t ht => (h.2.2.1 t ht).1, h.2.2.2⟩

/-- C5: for a non-empty segment spec with non-negative entries, generation
places exactly `Σ lengths` cube centers and emits `36 × Σ lengths` vertices,
and within every segment consecutive cube centers differ by exactly
`2 * side * unitVectorOf(axis)`, a vector of length 2 along one coordinate
axis (`side = ±1` and `dirVec` of the segment's direction is a standard basis
vector). -/
theorem c5_counts_and_spacing (r : ℕ → Bool) (k : ℕ) (segs : List ℤ)
    (hne : segs ≠ []) (hnn : ∀ l ∈ segs, 0 ≤ l) :
    (((initializeShape r k segs).1).blocks.length : ℤ) = segs.sum ∧
    ((initializeShape r k segs).1).vertices.length =
      36 * ((initializeShape r k segs).1).blocks.length ∧
    ∀ t ∈ (walkSegs r segs (initWalkState k)).1,
      List.Chain' (fun p q => q = p + (2 * t.side) • dirVec t.direction) t.blocks ∧
      (t.side = 1 ∨ t.side = -1) ∧
      (dirVec t.direction = ⟨1, 0, 0⟩ ∨ dirVec t.direction = ⟨0, 1, 0⟩ ∨
       dirVec t.direction = ⟨0, 0, 1⟩) := by
  have hinv := walkSegs_inv r segs (initWalkState k)
    ⟨Or.inr (Or.inl rfl), Or.inl rfl⟩
  refine ⟨?_, ?_, ?_⟩
  · rw [initializeShape_blocks, walkSegs_blocks_length]
    exact sum_toNat_of_nonneg segs hnn
  · rw [initializeShape_vertices, flatMap_cubeVertices_length]
  · intro t ht
    refine ⟨walkSegs_blocks_chain r segs _ t ht, (hinv.2.2.1 t ht).2, ?_⟩
    rcases (hinv.2.2.1 t ht).1 with h | h | h <;> rw [h]
    · right; right; exact dirVec_one
    · right; left; exact dirVec_two
    · left; exact dirVec_four

/-- C5 witness: the theorem applied to segments `[3, 3, 2, 3]` with a
constant-false random stream. -/
theorem c5_counts_and_spacing_witness :
    (([3, 3, 2, 3] : List ℤ) ≠ [] ∧ ∀ l ∈ ([3, 3, 2, 3] : List ℤ), 0 ≤ l) ∧
    ((((initializeShape (fun _ => false) 0 [3, 3, 2, 3]).1).blocks.length : ℤ) =
        ([3, 3, 2, 3] : List ℤ).sum ∧
      ((initializeShape (fun _ => false) 0 [3, 3, 2, 3]).1).vertices.length =
        36 * ((initializeShape (fun _ => false) 0 [3, 3, 2, 3]).1).blocks.length ∧
      ∀ t ∈ (walkSegs (fun _ => false) [3, 3, 2, 3] (initWalkState 0)).1,
        List.Chain' (fun p q => q = p + (2 * t.side) • dirVec t.direction) t.blocks ∧
        (t.side = 1 ∨ t.side = -1) ∧
        (dirVec t.direction = ⟨1, 0, 0⟩ ∨ dirVec t.direction = ⟨0, 1, 0⟩ ∨
         dirVec t.direction = ⟨0, 0, 1⟩)) :=
  ⟨⟨by decide, by decide⟩,
   c5_counts_and_spacing (fun _ => false) 0 [3, 3, 2, 3] (by decide) (by decide)⟩

/-- C10: every cube center generated from any spec and any random stream has
all three coordinates even integers; and whenever at least one cube is placed
(witnessed by a member of the block list), the first block is the origin and
the bounding box contains the cube with corners `(-1,-1,-1)` and `(1,1,1)`. -/
theorem c10_even_centers_origin_box (r : ℕ → Bool) (k : ℕ) (segs : List ℤ)
    (blk : Vec3) (hmem : blk ∈ ((initializeShape r k segs).1).blocks) :
    (∃ a b c : ℤ, blk.x = 2 * a ∧ blk.y = 2 * b ∧ blk.z = 2 * c) ∧
    ((initializeShape r k segs).1).blocks.head? = some ⟨0, 0, 0⟩ ∧
    ((initializeShape r k segs).1).boundingBox.min.x ≤ -1 ∧
    ((initializeShape r k segs).1).boundingBox.min.y ≤ -1 ∧
    ((initializeShape r k segs).1).boundingBox.min.z ≤ -1 ∧
    1 ≤ ((initializeShape r k segs).1).boundingBox.max.x ∧
    1 ≤ ((initializeShape r k segs).1).boundingBox.max.y ∧
    1 ≤ ((initializeShape r k segs).1).boundingBox.max.z := by
  rw [initializeShape_blocks] at hmem ⊢
  have hinv : WalkInv (initWalkState k) := ⟨Or.inr (Or.inl rfl), Or.inl rfl⟩
  have heven0 : EvenPt (initWalkState k).center := ⟨0, 0, 0, by norm_num [initWalkState]⟩
  -- evenness
  obtain ⟨t, ht, hp⟩ := List.mem_flatMap.1 hmem
  have heven := (walkSegs_even r segs (initWalkState k) hinv heven0).1 t ht blk hp
  -- head
  have hhead :
      ((walkSegs r segs (initWalkState k)).1.flatMap SegTrace.blocks).head? =
        some ⟨0, 0, 0⟩ := by
    rcases walkSegs_blocks_head r segs (initWalkState k) with h | h
    · rw [h] at hmem; cases hmem
    · exact h
  -- the origin is a block, so the origin cube's corners are vertices
  have horig : (⟨0, 0, 0⟩ : Vec3) ∈
      (walkSegs r segs (initWalkState k)).1.flatMap SegTrace.blocks := by
    rcases hl : (walkSegs r segs (initWalkState k)).1.flatMap SegTrace.blocks with
      _ | ⟨c, rest⟩
    · rw [hl] at hmem; cases hmem
    · rw [hl] at hhead
      simp only [List.head?_cons, Option.some.injEq] at hhead
      rw [hhead]
      exact List.mem_cons_self _ _
  have hlow : (⟨⟨-1, -1, -1⟩ + ⟨0, 0, 0⟩, (0, 0)⟩ : Vertex) ∈
      ((initializeShape r k segs).1).vertices := by
    rw [initializeShape_vertices, initializeShape_blocks]
    exact List.mem_flatMap.2 ⟨_, horig, lowCorner_mem_cubeVertices _⟩
  have hhigh : (⟨⟨1, 1, 1⟩ + ⟨0, 0, 0⟩, (1, 1)⟩ : Vertex) ∈
      ((initializeShape r k segs).1).vertices := by
    rw [initializeShape_vertices, initializeShape_blocks]
    exact List.mem_flatMap.2 ⟨_, horig, highCorner_mem_cubeVertices _⟩
  refine ⟨heven, hhead, ?_, ?_, ?_, ?_, ?_, ?_⟩
  · have := computeBoundingBox_min_le Vec3.x (fun a b => rfl) _ _ hlow
    rw [initializeShape_bb]
    calc ((computeBoundingBox ((initializeShape r k segs).1).vertices).min).x
        ≤ (⟨⟨-1, -1, -1⟩ + ⟨0, 0, 0⟩, (0, 0)⟩ : Vertex).position.x := this
      _ = -1 := by norm_num
  · have := computeBoundingBox_min_le Vec3.y (fun a b => rfl) _ _ hlow
    rw [initializeShape_bb]
    calc ((computeBoundingBox ((initializeShape r k segs).1).vertices).min).y
        ≤ (⟨⟨-1, -1, -1⟩ + ⟨0, 0, 0⟩, (0, 0)⟩ : Vertex).position.y := this
      _ = -1 := by norm_num
  · have := computeBoundingBox_min_le Vec3.z (fun a b => rfl) _ _ hlow
    rw [initializeShape_bb]
    calc ((computeBoundingBox ((initializeShape r k segs).1).vertices).min).z
        ≤ (⟨⟨-1, -1, -1⟩ + ⟨0, 0, 0⟩, (0, 0)⟩ : Vertex).position.z := this
      _ = -1 := by norm_num
  · have := computeBoundingBox_max_ge Vec3.x (fun a b => rfl) _ _ hhigh
    rw [initializeShape_bb]
    calc (1 : ℚ) = (⟨⟨1, 1, 1⟩ + ⟨0, 0, 0⟩, (1, 1)⟩ : Vertex).position.x := by norm_num
      _ ≤ _ := this
  · have := computeBoundingBox_max_ge Vec3.y (fun a b => rfl) _ _ hhigh
    rw [initializeShape_bb]
    calc (1 : ℚ) = (⟨⟨1, 1, 1⟩ + ⟨0, 0, 0⟩, (1, 1)⟩ : Vertex).position.y := by norm_num
      _ ≤ _ := this
  · have := computeBoundingBox_max_ge Vec3.z (fun a b => rfl) _ _ hhigh
    rw [initializeShape_bb]
    calc (1 : ℚ) = (⟨⟨1, 1, 1⟩ + ⟨0, 0, 0⟩, (1, 1)⟩ : Vertex).position.z := by norm_num
      _ ≤ _ := this

/-- C10 witness: the theorem applied to the single-segment spec `[1]`, whose
only block is the origin. -/
theorem c10_even_centers_origin_box_witness :
    ((⟨0, 0, 0⟩ : Vec3) ∈ ((initializeShape (fun _ => false) 0 [1]).1).blocks) ∧
    ((∃ a b c : ℤ,
        (⟨0, 0, 0⟩ : Vec3).x = 2 * a ∧ (⟨0, 0, 0⟩ : Vec3).y = 2 * b ∧
        (⟨0, 0, 0⟩ : Vec3).z = 2 * c) ∧
      ((initializeShape (fun _ => false) 0 [1]).1).blocks.head? = some ⟨0, 0, 0⟩ ∧
      ((initializeShape (fun _ => false) 0 [1]).1).boundingBox.min.x ≤ -1 ∧
      ((initializeShape (fun _ => false) 0 [1]).1).boundingBox.min.y ≤ -1 ∧
      ((initializeShape (fun _ => false) 0 [1]).1).boundingBox.min.z ≤ -1 ∧
      1 ≤ ((initializeShape (fun _ => false) 0 [1]).1).boundingBox.max.x ∧
      1 ≤ ((initializeShape (fun _ => false) 0 [1]).1).boundingBox.max.y ∧
      1 ≤ ((initializeShape (fun _ => false) 0 [1]).1).boundingBox.max.z) := by
  have hmem : (⟨0, 0, 0⟩ : Vec3) ∈
      ((initializeShape (fun _ => false) 0 [1]).1).blocks := by
    rw [initializeShape_blocks, walkSegs_cons]
    simp [segStep_fst, walkSegs, segLoop_succ, segLoop, initWalkState]
  exact ⟨hmem,
    c10_even_centers_origin_box (fun _ => false) 0 [1] ⟨0, 0, 0⟩ hmem⟩

/-- C4 counterexample: with segment spec `[2]` (first segment length 2, no
randomness consulted before the first segment ends), the two cube centers are
`(0,0,0)` and `(0,2,0)`: the first segment advances along the POSITIVE Y axis,
not along Z as the claim states (`direction = 2` is bit 1, the Y bit, under
the encoding bit2=X, bit1=Y, bit0=Z). -/
theorem c4_counterexample :
    ((initializeShape (fun _ => false) 0 [2]).1).blocks = [⟨0, 0, 0⟩, ⟨0, 2, 0⟩] ∧
    ([⟨0, 0, 0⟩, ⟨0, 2, 0⟩] : List Vec3) ≠ [⟨0, 0, 0⟩, ⟨0, 0, 2⟩] := by
  constructor
  · rw [initializeShape_blocks, walkSegs_cons]
    have h2 : ((2 : ℤ).toNat) = 1 + 1 := by decide
    simp only [segStep_fst, walkSegs, List.flatMap_cons, List.flatMap_nil,
      List.append_nil, h2, segLoop_succ, segLoop, initWalkState, dirVec_two]
    norm_num [Vec3.mk.injEq]
  · intro h
    have := List.cons.injEq (⟨0, 0, 0⟩ : Vec3) [⟨0, 2, 0⟩] ⟨0, 0, 0⟩ [⟨0, 0, 2⟩]
    rw [this] at h
    have h2 := h.2
    simp only [List.cons.injEq, Vec3.mk.injEq] at h2
    exact absurd h2.1.2.1 (by norm_num)

/-- C4 (amended): generation initializes the walk with its center at the
origin, the direction bit pattern 2 — which under the encoding bit2=X, bit1=Y,
bit0=Z is the Y axis — and the side sign +1, so for any spec whose first
segment length is ≥ 1 the first segment's cubes advance along the Y axis in
the positive direction: the j-th cube center of the first segment is
`(0, 2j, 0)`. -/
theorem c4_initial_axis_y (r : ℕ → Bool) (k : ℕ) (l : ℤ) (rest : List ℤ)
    (hl : 1 ≤ l) :
    (initWalkState k).center = ⟨0, 0, 0⟩ ∧
    (initWalkState k).direction = 2 ∧
    (initWalkState k).side = 1 ∧
    dirVec 2 = ⟨0, 1, 0⟩ ∧
    ((walkSegs r (l :: rest) (initWalkState k)).1.head? =
      some (segStep r (initWalkState k) l).1) ∧
    (segStep r (initWalkState k) l).1.direction = 2 ∧
    (segStep r (initWalkState k) l).1.side = 1 ∧
    ∀ j : ℕ, j < l.toNat →
      (segStep r (initWalkState k) l).1.blocks.get? j =
        some ⟨0, 2 * (j : ℚ), 0⟩ := by
  refine ⟨rfl, rfl, rfl, dirVec_two, by rw [walkSegs_cons]; rfl, rfl, rfl, ?_⟩
  intro j hj
  rw [segStep_fst]
  show (segLoop ((2 * (initWalkState k).side) • dirVec (initWalkState k).direction)
      l.toNat (initWalkState k).center).1.get? j = _
  rw [segLoop_get _ _ _ j hj]
  have hd : (2 * (initWalkState k).side) • dirVec (initWalkState k).direction =
      ⟨0, 2, 0⟩ := by
    show (2 * (1 : ℚ)) • dirVec 2 = _
    rw [dirVec_two]
    norm_num [Vec3.mk.injEq]
  rw [hd]
  show some (⟨(0 : ℚ) + j * 0, 0 + j * 2, 0 + j * 0⟩ : Vec3) = _
  norm_num [Vec3.mk.injEq]
  ring

/-- C4 witness for the amended claim: the theorem applied to first-segment
length 2 with a constant-false random stream. -/
theorem c4_initial_axis_y_witness :
    ((1 : ℤ) ≤ 2) ∧
    ((initWalkState 0).center = ⟨0, 0, 0⟩ ∧
     (initWalkState 0).direction = 2 ∧
     (initWalkState 0).side = 1 ∧
     dirVec 2 = ⟨0, 1, 0⟩ ∧
     ((walkSegs (fun _ => false) ([2] : List ℤ) (initWalkState 0)).1.head? =
       some (segStep (fun _ => false) (initWalkState 0) 2).1) ∧
     (segStep (fun _ => false) (initWalkState 0) 2).1.direction = 2 ∧
     (segStep (fun _ => false) (initWalkState 0) 2).1.side = 1 ∧
     ∀ j : ℕ, j < (2 : ℤ).toNat →
       (segStep (fun _ => false) (initWalkState 0) 2).1.blocks.get? j =
         some ⟨0, 2 * (j : ℚ), 0⟩) := by
  exact ⟨by decide, c4_initial_axis_y (fun _ => false) 0 2 [] (by decide)⟩

/-- C2 counterexample: the segment spec `[0]` is non-empty and all its entries
are ≥ 0, yet it places no cube, so the bounding-box loop never runs and the
box keeps its sentinel initialization `min = FLT_MAX > max = FLT_MIN`: the
claimed invariant `min ≤ max` fails. -/
theorem c2_counterexample :
    (([0] : List ℤ) ≠ [] ∧ ∀ l ∈ ([0] : List ℤ), 0 ≤ l) ∧
    ¬ (((initializeShape (fun _ => false) 0 [0]).1).boundingBox.min.x ≤
        ((initializeShape (fun _ => false) 0 [0]).1).boundingBox.max.x) := by
  refine ⟨⟨by decide, by decide⟩, ?_⟩
  have h : ((initializeShape (fun _ => false) 0 [0]).1).boundingBox =
      ⟨⟨floatMax, floatMax, floatMax⟩, ⟨floatMinPos, floatMinPos, floatMinPos⟩⟩ :=
    rfl
  rw [h]
  norm_num [floatMax, floatMinPos]

/-- C2 (amended): for any spec that places at least one cube (some entry ≥ 1),
the generated bounding box satisfies `min ≤ max` component-wise, and it is
never degenerate (`min ≠ max`), since every placed cube contributes vertices
spanning 2 units on each axis. -/
theorem c2_bbox_min_le_max (r : ℕ → Bool) (k : ℕ) (segs : List ℤ)
    (hpos : ∃ l ∈ segs, 1 ≤ l) :
    (((initializeShape r k segs).1).boundingBox.min.x ≤
        ((initializeShape r k segs).1).boundingBox.max.x ∧
      ((initializeShape r k segs).1).boundingBox.min.y ≤
        ((initializeShape r k segs).1).boundingBox.max.y ∧
      ((initializeShape r k segs).1).boundingBox.min.z ≤
        ((initializeShape r k segs).1).boundingBox.max.z) ∧
    ((initializeShape r k segs).1).boundingBox.min ≠
      ((initializeShape r k segs).1).boundingBox.max := by
  -- at least one block is placed
  have hlen : 0 < ((initializeShape r k segs).1).blocks.length := by
    rw [initializeShape_blocks, walkSegs_blocks_length]
    obtain ⟨l, hl, h1⟩ := hpos
    have hmem : l.toNat ∈ segs.map Int.toNat := List.mem_map_of_mem _ hl
    have h2 : 1 ≤ l.toNat := by omega
    calc 0 < l.toNat := h2
      _ ≤ (segs.map Int.toNat).sum :=
        List.single_le_sum (fun _ _ => Nat.zero_le _) _ hmem
  obtain ⟨c, hc⟩ := List.exists_mem_of_length_pos hlen
  have hlow : (⟨⟨-1, -1, -1⟩ + c, (0, 0)⟩ : Vertex) ∈
      ((initializeShape r k segs).1).vertices := by
    rw [initializeShape_vertices]
    exact List.mem_flatMap.2 ⟨c, hc, lowCorner_mem_cubeVertices c⟩
  have hhigh : (⟨⟨1, 1, 1⟩ + c, (1, 1)⟩ : Vertex) ∈
      ((initializeShape r k segs).1).vertices := by
    rw [initializeShape_vertices]
    exact List.mem_flatMap.2 ⟨c, hc, highCorner_mem_cubeVertices c⟩
  have hx : ((initializeShape r k segs).1).boundingBox.min.x <
      ((initializeShape r k segs).1).boundingBox.max.x := by
    have h1 := computeBoundingBox_min_le Vec3.x (fun a b => rfl) _ _ hlow
    have h2 := computeBoundingBox_max_ge Vec3.x (fun a b => rfl) _ _ hhigh
    rw [initializeShape_bb]
    have e1 : (⟨⟨-1, -1, -1⟩ + c, (0, 0)⟩ : Vertex).position.x = -1 + c.x := rfl
    have e2 : (⟨⟨1, 1, 1⟩ + c, (1, 1)⟩ : Vertex).position.x = 1 + c.x := rfl
    rw [e1] at h1; rw [e2] at h2
    linarith
  have hy : ((initializeShape r k segs).1).boundingBox.min.y <
      ((initializeShape r k segs).1).boundingBox.max.y := by
    have h1 := computeBoundingBox_min_le Vec3.y (fun a b => rfl) _ _ hlow
    have h2 := computeBoundingBox_max_ge Vec3.y (fun a b => rfl) _ _ hhigh
    rw [initializeShape_bb]
    have e1 : (⟨⟨-1, -1, -1⟩ + c, (0, 0)⟩ : Vertex).position.y = -1 + c.y := rfl
    have e2 : (⟨⟨1, 1, 1⟩ + c, (1, 1)⟩ : Vertex).position.y = 1 + c.y := rfl
    rw [e1] at h1; rw [e2] at h2
    linarith
  have hz : ((initializeShape r k segs).1).boundingBox.min.z <
      ((initializeShape r k segs).1).boundingBox.max.z := by
    have h1 := computeBoundingBox_min_le Vec3.z (fun a b => rfl) _ _ hlow
    have h2 := computeBoundingBox_max_ge Vec3.z (fun a b => rfl) _ _ hhigh
    rw [initializeShape_bb]
    have e1 : (⟨⟨-1, -1, -1⟩ + c, (0, 0)⟩ : Vertex).position.z = -1 + c.z := rfl
    have e2 : (⟨⟨1, 1, 1⟩ + c, (1, 1)⟩ : Vertex).position.z = 1 + c.z := rfl
    rw [e1] at h1; rw [e2] at h2
    linarith
  refine ⟨⟨le_of_lt hx, le_of_lt hy, le_of_lt hz⟩, ?_⟩
  intro h
  rw [h] at hx
  exact lt_irrefl _ hx

/-- C2 witness for the amended claim: the theorem applied to the demo's
actual spec `[3, 3, 2, 3]` with a constant-false random stream. -/
theorem c2_bbox_min_le_max_witness :
    (∃ l ∈ ([3, 3, 2, 3] : List ℤ), 1 ≤ l) ∧
    ((((initializeShape (fun _ => false) 0 [3, 3, 2, 3]).1).boundingBox.min.x ≤
        ((initializeShape (fun _ => false) 0 [3, 3, 2, 3]).1).boundingBox.max.x ∧
      ((initializeShape (fun _ => false) 0 [3, 3, 2, 3]).1).boundingBox.min.y ≤
        ((initializeShape (fun _ => false) 0 [3, 3, 2, 3]).1).boundingBox.max.y ∧
      ((initializeShape (fun _ => false) 0 [3, 3, 2, 3]).1).boundingBox.min.z ≤
        ((initializeShape (fun _ => false) 0 [3, 3, 2, 3]).1).boundingBox.max.z) ∧
    ((initializeShape (fun _ => false) 0 [3, 3, 2, 3]).1).boundingBox.min ≠
      ((initializeShape (fun _ => false) 0 [3, 3, 2, 3]).1).boundingBox.max) :=
  ⟨by decide, c2_bbox_min_le_max (fun _ => false) 0 [3, 3, 2, 3] (by decide)⟩

theorem Demo.render_of_rowCount_eq_zero (d : Demo)
    (h : (d.shapes.length + 3 - 1) / 3 = 0) :
    Demo.render d = { cleared := true, layout := none } := by
  simp only [Demo.render, h, if_pos]

theorem Demo.render_of_rowCount_ne_zero (d : Demo)
    (h : (d.shapes.length + 3 - 1) / 3 ≠ 0) :
    Demo.render d =
      { cleared := true,
        layout := some
          { rowCount := (d.shapes.length + 3 - 1) / 3,
            viewportWidth := d.canvasWidth / 3,
            viewportHeight := d.canvasHeight / ((d.shapes.length + 3 - 1) / 3),
            draws := d.shapes.enum.map
              (drawFor d (d.canvasWidth / 3)
                (d.canvasHeight / ((d.shapes.length + 3 - 1) / 3))) } } := by
  simp only [Demo.render, h, if_neg, if_false]

/-- C3 counterexample: rendering with an empty shape collection computes a row
count of `(0 + 3 - 1) / 3 = 0` and then divides the canvas height by it —
integer division by zero, undefined behaviour in the source (modelled as
`layout = none`) — so rendering 0 shapes does NOT complete without failure as
the claim states. -/
theorem c3_counterexample :
    ((mkDemo 800 600).shapes.length + 3 - 1) / 3 = 0 ∧
    (Demo.render (mkDemo 800 600)).layout = none := ⟨rfl, rfl⟩

/-- C3 (amended): rendering a frame when the shape collection is empty clears
the color and depth buffers and issues no draw command, but the viewport
layout arithmetic then divides the surface height by a row count of zero
(undefined behaviour), instead of completing without failure. -/
theorem c3_empty_render (d : Demo) (h : d.shapes = []) :
    (Demo.render d).cleared = true ∧
    (d.shapes.length + 3 - 1) / 3 = 0 ∧
    (Demo.render d).layout = none := by
  have hlen : (d.shapes.length + 3 - 1) / 3 = 0 := by rw [h]; rfl
  rw [Demo.render_of_rowCount_eq_zero d hlen]
  exact ⟨rfl, hlen, rfl⟩

/-- C3 witness for the amended claim: an 800×600 demo before any shape is
generated. -/
theorem c3_empty_render_witness :
    (mkDemo 800 600).shapes = [] ∧
    ((Demo.render (mkDemo 800 600)).cleared = true ∧
     ((mkDemo 800 600).shapes.length + 3 - 1) / 3 = 0 ∧
     (Demo.render (mkDemo 800 600)).layout = none) :=
  ⟨rfl, c3_empty_render (mkDemo 800 600) rfl⟩

/-- C7: `renderAndStep dt` first renders using the pre-call elapsed time and
only afterwards adds exactly `dt` to the elapsed time, leaving the shape
collection and the surface dimensions unchanged; a step with `dt = 0` leaves
the whole state unchanged (so repeated `dt = 0` calls render identical
frames), and a freshly constructed demo has elapsed time 0 (so the very first
rendered frame uses time 0). -/
theorem c7_render_before_step (d : Demo) (dt : ℚ) :
    (d.renderAndStep dt).1 = d.render ∧
    (d.renderAndStep dt).2.curTime = d.curTime + dt ∧
    (d.renderAndStep dt).2.shapes = d.shapes ∧
    (d.renderAndStep dt).2.canvasWidth = d.canvasWidth ∧
    (d.renderAndStep dt).2.canvasHeight = d.canvasHeight ∧
    (d.renderAndStep 0).2 = d ∧
    (∀ w h : ℕ, (mkDemo w h).curTime = 0) := by
  refine ⟨rfl, rfl, rfl, rfl, rfl, ?_, fun w h => rfl⟩
  show { d with curTime := d.curTime + 0 } = d
  cases d with
  | mk w h shapes t => simp [Demo.renderAndStep]

/-- C1 (code behaviour at the failing input): when both `addShader` calls
succeed but `link()` fails, `initializeProgram` logs the link failure yet
still returns `true` — its link branch (demo.cc lines 31-34) has no
`return false`, unlike the two `addShader` branches — so `Demo::initialize`
reports success and generates all six shapes.  This contradicts the claim
(and the evident intent of the code's own diagnostic): a link failure is not
treated as a fatal initialization failure. -/
theorem c1_link_failure_not_fatal :
    (initializeProgram true true false).1 = true ∧
    (initializeProgram true true false).2 = [LogEvent.linkFailed] ∧
    (Demo.initializeScene true true false (fun _ => false) (mkDemo 800 600)).1 =
      true ∧
    ((Demo.initializeScene true true false (fun _ => false)
        (mkDemo 800 600)).2).shapes.length = 6 ∧
    (Demo.initializeScene false true true (fun _ => false) (mkDemo 800 600)).1 =
      false ∧
    ((Demo.initializeScene false true true (fun _ => false)
        (mkDemo 800 600)).2).shapes.length = 0 ∧
    (Demo.initializeScene true false true (fun _ => false) (mkDemo 800 600)).1 =
      false ∧
    ((Demo.initializeScene true false true (fun _ => false)
        (mkDemo 800 600)).2).shapes.length = 0 :=
  ⟨rfl, rfl, rfl, rfl, rfl, rfl, rfl, rfl⟩

theorem drawFor_viewport (d : Demo) (vw vh : ℕ) (p : ℕ × Shape) :
    (drawFor d vw vh p).viewportX = (p.1 % 3) * vw ∧
    (drawFor d vw vh p).viewportY = (p.1 / 3) * vh ∧
    (drawFor d vw vh p).viewportW = vw ∧
    (drawFor d vw vh p).viewportH = vh :=
  ⟨rfl, rfl, rfl, rfl⟩

/-- C8: with a non-empty shape collection, the frame layout has fixed column
count 3, row count `⌈shapeCount / 3⌉` (computed as `(shapeCount + 3 - 1) / 3`),
viewport width `surfaceWidth / 3` and height `surfaceHeight / rowCount`
(integer divisions), and the i-th shape's viewport origin is
`((i mod 3) · viewportWidth, (i div 3) · viewportHeight)` — row-major
placement; in particular with 6 shapes the row count is 2, the viewport height
is `surfaceHeight / 2`, and the six viewport origins are the grid cells
(0,0),(1,0),(2,0),(0,1),(1,1),(2,1) scaled by the viewport size. -/
theorem c8_viewport_grid (d : Demo) (i : ℕ) (hi : i < d.shapes.length) :
    ∃ L : RenderLayout, (Demo.render d).layout = some L ∧
      L.rowCount = (d.shapes.length + 3 - 1) / 3 ∧
      L.viewportWidth = d.canvasWidth / 3 ∧
      L.viewportHeight = d.canvasHeight / L.rowCount ∧
      L.draws.length = d.shapes.length ∧
      (∃ dc : DrawCommand, L.draws.get? i = some dc ∧
        dc.viewportX = (i % 3) * L.viewportWidth ∧
        dc.viewportY = (i / 3) * L.viewportHeight ∧
        dc.viewportW = L.viewportWidth ∧ dc.viewportH = L.viewportHeight) ∧
      (d.shapes.length = 6 →
        L.rowCount = 2 ∧ L.viewportHeight = d.canvasHeight / 2 ∧
        L.draws.map (fun dc => (dc.viewportX, dc.viewportY)) =
          [(0, 0), (L.viewportWidth, 0), (2 * L.viewportWidth, 0),
           (0, L.viewportHeight), (L.viewportWidth, L.viewportHeight),
           (2 * L.viewportWidth, L.viewportHeight)]) := by
  have hrc : (d.shapes.length + 3 - 1) / 3 ≠ 0 := by omega
  rw [Demo.render_of_rowCount_ne_zero d hrc]
  refine ⟨_, rfl, rfl, rfl, rfl, ?_, ?_, ?_⟩
  · simp [List.length_map, List.enum_length]
  · -- the i-th draw command
    have hsh : d.shapes.get? i = some (d.shapes.get ⟨i, hi⟩) := List.get?_eq_get hi
    refine ⟨drawFor d (d.canvasWidth / 3)
        (d.canvasHeight / ((d.shapes.length + 3 - 1) / 3))
        (i, d.shapes.get ⟨i, hi⟩), ?_,
      rfl, rfl, rfl, rfl⟩
    rw [List.get?_map, List.get?_enum, hsh]
    rfl
  · intro h6
    have hrc2 : (d.shapes.length + 3 - 1) / 3 = 2 := by omega
    refine ⟨hrc2, by rw [hrc2], ?_⟩
    rw [List.map_map]
    have hcomp :
        ((fun dc => (dc.viewportX, dc.viewportY)) ∘
          drawFor d (d.canvasWidth / 3)
            (d.canvasHeight / ((d.shapes.length + 3 - 1) / 3))) =
          (fun p : ℕ × Shape =>
            ((p.1 % 3) * (d.canvasWidth / 3),
             (p.1 / 3) * (d.canvasHeight / ((d.shapes.length + 3 - 1) / 3)))) :=
      rfl
    rw [hcomp]
    have hfst :
        d.shapes.enum.map (fun p : ℕ × Shape =>
            ((p.1 % 3) * (d.canvasWidth / 3),
             (p.1 / 3) * (d.canvasHeight / ((d.shapes.length + 3 - 1) / 3)))) =
          (d.shapes.enum.map Prod.fst).map (fun j : ℕ =>
            ((j % 3) * (d.canvasWidth / 3),
             (j / 3) * (d.canvasHeight / ((d.shapes.length + 3 - 1) / 3)))) := by
      rw [List.map_map]
      rfl
    rw [hfst, List.enum_map_fst, h6]
    simp [List.range_succ]

/-- C8 witness: the theorem applied to a 600×400 surface with six shapes at
index 0. -/
theorem c8_viewport_grid_witness :
    0 < demoSix.shapes.length ∧
    (∃ L : RenderLayout, (Demo.render demoSix).layout = some L ∧
      L.rowCount = (demoSix.shapes.length + 3 - 1) / 3 ∧
      L.viewportWidth = demoSix.canvasWidth / 3 ∧
      L.viewportHeight = demoSix.canvasHeight / L.rowCount ∧
      L.draws.length = demoSix.shapes.length ∧
      (∃ dc : DrawCommand, L.draws.get? 0 = some dc ∧
        dc.viewportX = (0 % 3) * L.viewportWidth ∧
        dc.viewportY = (0 / 3) * L.viewportHeight ∧
        dc.viewportW = L.viewportWidth ∧ dc.viewportH = L.viewportHeight) ∧
      (demoSix.shapes.length = 6 →
        L.rowCount = 2 ∧ L.viewportHeight = demoSix.canvasHeight / 2 ∧
        L.draws.map (fun dc => (dc.viewportX, dc.viewportY)) =
          [(0, 0), (L.viewportWidth, 0), (2 * L.viewportWidth, 0),
           (0, L.viewportHeight), (L.viewportWidth, L.viewportHeight),
           (2 * L.viewportWidth, L.viewportHeight)])) :=
  ⟨by decide, c8_viewport_grid demoSix 0 (by decide)⟩

/-- C9: for every shape index and every frame, the model matrix recorded in
that shape's draw command is `rotate(-1.5 · elapsedTime, normalize(1,1,1))`
composed after `translate(-boundingBoxCenter)` (rotation times translation:
the shape is centered first, then spun), the view matrix is the fixed
`lookAt(eye (0,0,-18), center origin, up (0,1,0))` — a constant, hence
identical for every shape and every frame — and the uploaded `mvp` uniform is
`projection × view × model`. -/
theorem c9_transforms (d : Demo) (i : ℕ) (hi : i < d.shapes.length) :
    ∃ (L : RenderLayout) (dc : DrawCommand) (sh : Shape),
      (Demo.render d).layout = some L ∧
      L.draws.get? i = some dc ∧
      d.shapes.get? i = some sh ∧
      dc.model = MatExpr.mul
        (MatExpr.rotate (-(3 / 2 : ℚ) * d.curTime) ⟨1, 1, 1⟩)
        (MatExpr.translate
          (-((1 / 2 : ℚ) • (sh.boundingBox.min + sh.boundingBox.max)))) ∧
      dc.view = MatExpr.lookAt ⟨0, 0, -18⟩ ⟨0, 0, 0⟩ ⟨0, 1, 0⟩ ∧
      dc.mvp = MatExpr.mul (MatExpr.mul dc.projection dc.view) dc.model := by
  have hrc : (d.shapes.length + 3 - 1) / 3 ≠ 0 := by omega
  rw [Demo.render_of_rowCount_ne_zero d hrc]
  have hsh : d.shapes.get? i = some (d.shapes.get ⟨i, hi⟩) := List.get?_eq_get hi
  refine ⟨_, drawFor d (d.canvasWidth / 3)
      (d.canvasHeight / ((d.shapes.length + 3 - 1) / 3))
      (i, d.shapes.get ⟨i, hi⟩),
    d.shapes.get ⟨i, hi⟩, rfl, ?_, hsh, rfl, rfl, rfl⟩
  rw [List.get?_map, List.get?_enum, hsh]
  rfl

/-- C9 witness: the theorem applied to a one-shape demo with elapsed time 7. -/
theorem c9_transforms_witness :
    0 < demoOne.shapes.length ∧
    (∃ (L : RenderLayout) (dc : DrawCommand) (sh : Shape),
      (Demo.render demoOne).layout = some L ∧
      L.draws.get? 0 = some dc ∧
      demoOne.shapes.get? 0 = some sh ∧
      dc.model = MatExpr.mul
        (MatExpr.rotate (-(3 / 2 : ℚ) * demoOne.curTime) ⟨1, 1, 1⟩)
        (MatExpr.translate
          (-((1 / 2 : ℚ) • (sh.boundingBox.min + sh.boundingBox.max)))) ∧
      dc.view = MatExpr.lookAt ⟨0, 0, -18⟩ ⟨0, 0, 0⟩ ⟨0, 1, 0⟩ ∧
      dc.mvp = MatExpr.mul (MatExpr.mul dc.projection dc.view) dc.model) :=
  ⟨by decide, c9_transforms demoOne 0 (by decide)⟩
